import Mathlib

/-!
Verification of the LiveSplit client (node-livesplit-client).

The development shallowly embeds the client found in
src/src/LiveSplitClient.js.  Text on the wire is modelled as lists of
characters.  The client object is a record; the Node.js event loop is
modelled by a deterministic small-step function over an explicit list of
events (command issuance, socket data chunks, timer expirations), which is
faithful to the single-threaded cooperative scheduling of the source.

The repository carries two revisions of the file (separated in the sources);
they differ in the socket data handler and in the signature of send.  The
state machine below embeds the first revision (the one cited by most claims,
whose send takes an expectResponse flag); the second revision's data handler
is embedded separately as splitMessages for the chunk-splitting claim.
-/

/-- The protocol line terminator, CRLF. -/
def crlf : List Char := ['\r', '\n']

/-- Embeds str.indexOf of the terminator from _checkDisallowedSymbols:
true iff the two-character sequence CR LF occurs in the list. -/
def containsCrlf : List Char → Bool
  | [] => false
  | [_] => false
  | c1 :: c2 :: rest =>
    if c1 = '\r' ∧ c2 = '\n' then true else containsCrlf (c2 :: rest)

/-- Embeds the first revision's socket data handler transformation,
data.toString.replace of the terminator by the empty string: JavaScript
replace with a string pattern removes only the FIRST occurrence. -/
def removeFirstCrlf : List Char → List Char
  | [] => []
  | [c] => [c]
  | c1 :: c2 :: rest =>
    if c1 = '\r' ∧ c2 = '\n' then rest
    else c1 :: removeFirstCrlf (c2 :: rest)

/-- Embeds the second revision's socket data handler transformation,
data.toString.split on the terminator: JavaScript split never drops
segments, so a trailing terminator yields a trailing empty segment. -/
def splitMessages : List Char → List (List Char)
  | [] => [[]]
  | [c] => [[c]]
  | c1 :: c2 :: rest =>
    if c1 = '\r' ∧ c2 = '\n' then [] :: splitMessages rest
    else
      match splitMessages (c2 :: rest) with
      | [] => [[c1]]
      | s :: ss => (c1 :: s) :: ss

/-- Embeds address.split of the colon in the constructor. -/
def splitOnColon : List Char → List (List Char)
  | [] => [[]]
  | c :: rest =>
    if c = ':' then [] :: splitOnColon rest
    else
      match splitOnColon rest with
      | [] => [[c]]
      | s :: ss => (c :: s) :: ss

/-- JavaScript whitespace characters skipped by parseInt. -/
def isJSWhitespace (c : Char) : Bool :=
  c = ' ' || c = '\t' || c = '\n' || c = '\r' || c = '\x0B' || c = '\x0C'

/-- Decimal digit value, none for a non-digit. -/
def digitVal (c : Char) : Option Nat :=
  if '0' ≤ c ∧ c ≤ '9' then some (c.toNat - '0'.toNat) else none

/-- Hexadecimal digit value, none for a non-digit. -/
def hexDigitVal (c : Char) : Option Nat :=
  if '0' ≤ c ∧ c ≤ '9' then some (c.toNat - '0'.toNat)
  else if 'a' ≤ c ∧ c ≤ 'f' then some (c.toNat - 'a'.toNat + 10)
  else if 'A' ≤ c ∧ c ≤ 'F' then some (c.toNat - 'A'.toNat + 10)
  else none

/-- Maximal prefix of digit values. -/
def takeDigits (dv : Char → Option Nat) : List Char → List Nat
  | [] => []
  | c :: rest =>
    match dv c with
    | some d => d :: takeDigits dv rest
    | none => []

/-- Value of a digit list in a given radix. -/
def digitsVal (radix : Nat) (ds : List Nat) : Nat :=
  ds.foldl (fun a d => a * radix + d) 0

/-- Embeds JavaScript parseInt with no radix argument, as used in the
constructor: skip whitespace, optional sign, optional hexadecimal prefix,
then the maximal digit prefix; NaN (modelled as none) when no digit is
consumed. -/
def parseIntJS (s : List Char) : Option Int :=
  let s1 := s.dropWhile isJSWhitespace
  let signAndRest : Bool × List Char :=
    match s1 with
    | '-' :: r => (true, r)
    | '+' :: r => (false, r)
    | r => (false, r)
  let radixAndDigits : Nat × (Char → Option Nat) × List Char :=
    match signAndRest.2 with
    | '0' :: 'x' :: r => (16, hexDigitVal, r)
    | '0' :: 'X' :: r => (16, hexDigitVal, r)
    | r => (10, digitVal, r)
  let ds := takeDigits radixAndDigits.2.1 radixAndDigits.2.2
  if ds = [] then none
  else
    let v : Int := Int.ofNat (digitsVal radixAndDigits.1 ds)
    some (if signAndRest.1 then -v else v)

/-- The _connectionDetails record built by the constructor: ip string and
parseInt of the port segment.  A none port is JavaScript NaN. -/
structure ConnectionDetails where
  ip : List Char
  port : Option Int
deriving DecidableEq, Repr

/-- Resolution value of a _waitForResponse promise: either the payload of a
data event, or the boolean false passed to resolve by the timeout callback.
The two constructors being distinct embeds the fact that the JavaScript
value false differs from every string. -/
inductive Resp
  | payload (s : List Char)
  | sentinel
deriving DecidableEq, Repr

/-- State of one _waitForResponse promise. -/
inductive FutState
  | pending
  | resolved (r : Resp)
deriving DecidableEq, Repr

/-- The client object of the first revision together with the observable
state of its collaborators: the bytes written to the socket, the active
once data listeners of the EventEmitter in registration order, the promises
created by _waitForResponse, and the armed timers.  Listener, promise and
timer created by one _waitForResponse call share one identifier. -/
structure ClientState where
  connectionDetails : ConnectionDetails
  connected : Bool
  timeout : Nat
  initGameTimeOnce : Bool
  wire : List (List Char)
  listeners : List Nat
  futures : List (Nat × FutState)
  timers : List Nat
  nextId : Nat
deriving DecidableEq, Repr

/-- Constructor failure: the address does not split on the colon into
exactly two segments. -/
inductive ConstructionError
  | parseFailure
deriving DecidableEq, Repr

/-- Errors thrown synchronously by send. -/
inductive SendError
  | notConnected
  | invalidCommand
deriving DecidableEq, Repr

/-- Embeds the constructor: the address (already a string, so the typeof
guard of the source cannot fire here) is split on the colon; exactly two
segments are required; the first is stored as ip and parseInt of the second
as port; the dispatcher-relevant state starts empty and disconnected. -/
def mkClient (address : List Char) : Except ConstructionError ClientState :=
  match splitOnColon address with
  | [ipPart, portPart] =>
    .ok { connectionDetails := { ip := ipPart, port := parseIntJS portPart },
          connected := false, timeout := 100, initGameTimeOnce := false,
          wire := [], listeners := [], futures := [], timers := [], nextId := 0 }
  | _ => .error .parseFailure

/-- Embeds the socket connect callback inside connect, which sets
_connected to true. -/
def connectSucceed (st : ClientState) : ClientState :=
  { st with connected := true }

/-- Embeds disconnect: returns false and does nothing when not connected,
otherwise destroys the socket and returns true. -/
def disconnect (st : ClientState) : ClientState × Bool :=
  if st.connected = false then (st, false)
  else ({ st with connected := false }, true)

/-- Embeds send: throws when not connected, throws when the command
contains the terminator, otherwise writes the command with the terminator
appended; when a response is expected it creates a listener, a pending
promise and an armed timer sharing a fresh identifier (the body of
_waitForResponse) and returns that identifier, otherwise it returns no
promise. -/
def send (st : ClientState) (cmd : List Char) (expectResponse : Bool) :
    Except SendError (ClientState × Option Nat) :=
  if st.connected = false then .error .notConnected
  else if containsCrlf cmd then .error .invalidCommand
  else
    let st1 := { st with wire := st.wire ++ [cmd ++ crlf] }
    if expectResponse then
      let n := st1.nextId
      .ok ({ st1 with listeners := st1.listeners ++ [n],
                      futures := st1.futures ++ [(n, .pending)],
                      timers := st1.timers ++ [n],
                      nextId := n + 1 }, some n)
    else .ok (st1, none)

/-- Calling resolve on one promise: JavaScript promises keep their first
resolution value, so an already resolved promise is unchanged. -/
def resolveState (r : Resp) : FutState → FutState
  | .pending => .resolved r
  | .resolved v => .resolved v

/-- Resolve the promise with the given identifier. -/
def resolveFut (fs : List (Nat × FutState)) (n : Nat) (r : Resp) :
    List (Nat × FutState) :=
  fs.map fun p => if p.1 = n then (p.1, resolveState r p.2) else p

/-- Embeds emitting the data event on the client: every registered once
listener fires in registration order with the payload, resolving its
promise, and all of them are removed. -/
def emitData (st : ClientState) (payload : List Char) : ClientState :=
  { st with listeners := [],
            futures := st.listeners.foldl
              (fun fs n => resolveFut fs n (.payload payload)) st.futures }

/-- Embeds the first revision's socket data handler: one inbound chunk
emits one data event whose payload is the chunk with only the first
terminator removed. -/
def chunkArrives (st : ClientState) (chunk : List Char) : ClientState :=
  emitData st (removeFirstCrlf chunk)

/-- Embeds the setTimeout callback of _waitForResponse for identifier n: if
that timer is still armed it is consumed, the listener is removed from the
emitter, and the promise is resolved with false (a no-op if the data
listener already resolved it). -/
def fireTimeout (st : ClientState) (n : Nat) : ClientState :=
  if n ∈ st.timers then
    { st with timers := st.timers.erase n,
              listeners := st.listeners.erase n,
              futures := resolveFut st.futures n .sentinel }
  else st

/-- The events the environment can deliver to the client: a caller invoking
send, a chunk arriving on the socket, a timer expiring. -/
inductive Event
  | send (cmd : List Char) (expectResponse : Bool)
  | chunk (c : List Char)
  | timeout (n : Nat)
deriving DecidableEq, Repr

/-- One step of the event loop.  A send that throws leaves the state
unchanged (the exception propagates to the caller before any mutation in
the source). -/
def stepEvent (st : ClientState) (e : Event) : ClientState :=
  match e with
  | .send cmd er =>
    match send st cmd er with
    | .ok (st', _) => st'
    | .error _ => st
  | .chunk c => chunkArrives st c
  | .timeout n => fireTimeout st n

/-- Run a list of events. -/
def runEvents (st : ClientState) (es : List Event) : ClientState :=
  es.foldl stepEvent st

/-- Lookup of a promise state by identifier. -/
def futLookup (n : Nat) : List (Nat × FutState) → Option FutState
  | [] => none
  | p :: rest => if p.1 = n then some p.2 else futLookup n rest

/-- State of the promise with identifier n in a client state. -/
def futVal (st : ClientState) (n : Nat) : Option FutState :=
  futLookup n st.futures

/-- Payload sequence emitted by the first revision's data handler for one
inbound chunk. -/
def emittedV1 (chunk : List Char) : List (List Char) :=
  [removeFirstCrlf chunk]

/-- Payload sequence emitted by the second revision's data handler for one
inbound chunk. -/
def emittedV2 (chunk : List Char) : List (List Char) :=
  splitMessages chunk

/-- The literal address 127.0.0.1:16834 used by the documented examples. -/
def goodAddr : List Char :=
  ['1', '2', '7', '.', '0', '.', '0', '.', '1', ':', '1', '6', '8', '3', '4']

/-- A freshly constructed client for that address. -/
def freshClient : ClientState :=
  { connectionDetails :=
      { ip := ['1', '2', '7', '.', '0', '.', '0', '.', '1'],
        port := some 16834 },
    connected := false, timeout := 100, initGameTimeOnce := false,
    wire := [], listeners := [], futures := [], timers := [], nextId := 0 }

/-- The same client after its connection succeeded. -/
def connectedClient : ClientState :=
  connectSucceed freshClient

/-- Removing the first terminator from a terminator-free prefix followed by
a terminator and a remainder yields the prefix glued to the remainder. -/
theorem removeFirstCrlf_append (a r : List Char) (h : containsCrlf a = false) :
    removeFirstCrlf (a ++ '\r' :: '\n' :: r) = a ++ r := by
  induction a with
  | nil => simp [removeFirstCrlf]
  | cons c a' ih =>
    cases a' with
    | nil =>
      simp [removeFirstCrlf]
    | cons c2 a'' =>
      rw [containsCrlf] at h
      rcases Classical.em (c = '\r' ∧ c2 = '\n') with hcond | hcond
      · rw [if_pos hcond] at h
        exact absurd h (by simp)
      · rw [if_neg hcond] at h
        have := ih h
        simp only [List.cons_append] at this ⊢
        rw [removeFirstCrlf, if_neg hcond, this]

/-- A terminator-free chunk splits into one segment. -/
theorem splitMessages_single (a : List Char) (h : containsCrlf a = false) :
    splitMessages a = [a] := by
  induction a with
  | nil => simp [splitMessages]
  | cons c a' ih =>
    cases a' with
    | nil => simp [splitMessages]
    | cons c2 a'' =>
      rw [containsCrlf] at h
      rcases Classical.em (c = '\r' ∧ c2 = '\n') with hcond | hcond
      · rw [if_pos hcond] at h
        exact absurd h (by simp)
      · rw [if_neg hcond] at h
        rw [splitMessages, if_neg hcond, ih h]

/-- Splitting a terminator-free prefix followed by a terminator and a
remainder yields the prefix as the first segment, then the segments of the
remainder. -/
theorem splitMessages_append (a r : List Char) (h : containsCrlf a = false) :
    splitMessages (a ++ '\r' :: '\n' :: r) = a :: splitMessages r := by
  induction a with
  | nil => simp [splitMessages]
  | cons c a' ih =>
    cases a' with
    | nil =>
      rw [List.singleton_append, splitMessages, if_neg (by simp),
        splitMessages, if_pos ⟨rfl, rfl⟩]
    | cons c2 a'' =>
      rw [containsCrlf] at h
      rcases Classical.em (c = '\r' ∧ c2 = '\n') with hcond | hcond
      · rw [if_pos hcond] at h
        exact absurd h (by simp)
      · rw [if_neg hcond] at h
        have := ih h
        simp only [List.cons_append] at this ⊢
        rw [splitMessages, if_neg hcond, this]

/-- Resolving twice with the same value is the same as resolving once. -/
theorem resolveState_idem (r : Resp) (s : FutState) :
    resolveState r (resolveState r s) = resolveState r s := by
  cases s <;> rfl

/-- Characterization of a lookup after resolving one promise. -/
theorem futLookup_resolveFut (fs : List (Nat × FutState)) (m n : Nat) (r : Resp) :
    futLookup n (resolveFut fs m r) =
      if n = m then (futLookup n fs).map (resolveState r) else futLookup n fs := by
  induction fs with
  | nil => simp [futLookup, resolveFut]
  | cons p rest ih =>
    simp only [resolveFut, List.map_cons] at ih ⊢
    by_cases hpm : p.1 = m <;> by_cases hpn : p.1 = n
    · have hnm : n = m := by rw [← hpn, hpm]
      simp [futLookup, hpm, hpn, hnm]
    · have hnm : ¬ n = m := by
        intro h; exact hpn (by rw [hpm, ← h])
      have hmn : ¬ m = n := fun h => hnm h.symm
      simp [futLookup, hpm, hpn, hnm, hmn, ih]
    · have hnm : ¬ n = m := by
        intro h; exact hpm (by rw [hpn, h])
      have hmn : ¬ m = n := fun h => hnm h.symm
      simp [futLookup, hpm, hpn, hnm, hmn]
    · simp [futLookup, hpm, hpn, ih]

/-- A lookup that succeeds on the first list succeeds on the appended list. -/
theorem futLookup_append_left (fs gs : List (Nat × FutState)) (n : Nat)
    (s : FutState) (h : futLookup n fs = some s) :
    futLookup n (fs ++ gs) = some s := by
  induction fs with
  | nil => simp [futLookup] at h
  | cons p rest ih =>
    simp only [futLookup, List.cons_append] at h ⊢
    by_cases hp : p.1 = n
    · rw [if_pos hp] at h ⊢; exact h
    · rw [if_neg hp] at h ⊢; exact ih h

/-- A lookup that fails on the first list falls through to the second. -/
theorem futLookup_append_right (fs gs : List (Nat × FutState)) (n : Nat)
    (h : futLookup n fs = none) :
    futLookup n (fs ++ gs) = futLookup n gs := by
  induction fs with
  | nil => simp
  | cons p rest ih =>
    simp only [futLookup, List.cons_append] at h ⊢
    by_cases hp : p.1 = n
    · rw [if_pos hp] at h; exact absurd h (by simp)
    · rw [if_neg hp] at h ⊢; exact ih h

/-- Characterization of a lookup after the data event fires: every listed
listener resolves its own promise with the payload. -/
theorem futLookup_emitFold (L : List Nat) (fs : List (Nat × FutState))
    (pay : List Char) (n : Nat) :
    futLookup n (L.foldl (fun a m => resolveFut a m (.payload pay)) fs) =
      if n ∈ L then (futLookup n fs).map (resolveState (.payload pay))
      else futLookup n fs := by
  induction L generalizing fs with
  | nil => simp
  | cons m L' ih =>
    rw [List.foldl_cons, ih, futLookup_resolveFut]
    by_cases hnm : n = m
    · simp only [hnm, List.mem_cons, true_or, if_pos, if_true]
      by_cases hmem : m ∈ L'
      · simp only [hmem, if_true, if_pos]
        cases futLookup m fs with
        | none => simp
        | some s => simp [resolveState_idem]
      · simp [hmem]
    · by_cases hmem : n ∈ L' <;> simp [List.mem_cons, hnm, hmem]

/-- A disconnected client makes send throw before anything else happens. -/
theorem send_not_connected (st : ClientState) (cmd : List Char) (er : Bool)
    (h : st.connected = false) :
    send st cmd er = .error .notConnected := by
  simp [send, h]

/-- A command containing the terminator makes send throw before the write. -/
theorem send_invalid (st : ClientState) (cmd : List Char) (er : Bool)
    (h1 : st.connected = true) (h2 : containsCrlf cmd = true) :
    send st cmd er = .error .invalidCommand := by
  simp [send, h1, h2]

/-- Successful response-expecting send: the command is written with the
terminator appended and a fresh listener, promise and timer are created. -/
theorem send_ok_expect (st : ClientState) (cmd : List Char)
    (h1 : st.connected = true) (h2 : containsCrlf cmd = false) :
    send st cmd true =
      .ok ({ st with wire := st.wire ++ [cmd ++ crlf],
                     listeners := st.listeners ++ [st.nextId],
                     futures := st.futures ++ [(st.nextId, .pending)],
                     timers := st.timers ++ [st.nextId],
                     nextId := st.nextId + 1 }, some st.nextId) := by
  simp [send, h1, h2]

/-- Successful fire-and-forget send: the command is written with the
terminator appended and nothing else changes; no promise is returned. -/
theorem send_ok_noexpect (st : ClientState) (cmd : List Char)
    (h1 : st.connected = true) (h2 : containsCrlf cmd = false) :
    send st cmd false = .ok ({ st with wire := st.wire ++ [cmd ++ crlf] }, none) := by
  simp [send, h1, h2]

/-- Effect of one inbound chunk on one promise: an active listener gets the
processed payload, promises without an active listener are untouched. -/
theorem futVal_chunkArrives (st : ClientState) (c : List Char) (n : Nat) :
    futVal (chunkArrives st c) n =
      if n ∈ st.listeners then
        (futVal st n).map (resolveState (.payload (removeFirstCrlf c)))
      else futVal st n := by
  simp only [futVal, chunkArrives, emitData]
  rw [futLookup_emitFold]

/-- Effect of a timer expiration on one promise: an armed timer resolves
its own promise with the sentinel, everything else is untouched. -/
theorem futVal_fireTimeout (st : ClientState) (m n : Nat) :
    futVal (fireTimeout st m) n =
      if m ∈ st.timers ∧ n = m then (futVal st n).map (resolveState .sentinel)
      else futVal st n := by
  simp only [futVal, fireTimeout]
  by_cases hm : m ∈ st.timers
  · rw [if_pos hm]
    show futLookup n (resolveFut st.futures m .sentinel) = _
    rw [futLookup_resolveFut]
    by_cases hnm : n = m
    · rw [if_pos hnm, if_pos ⟨hm, hnm⟩]
    · rw [if_neg hnm, if_neg (fun hc => hnm hc.2)]
  · rw [if_neg hm, if_neg (fun hc => hm hc.1)]

/-- Effect of one send step on one existing promise: none. -/
theorem futVal_stepSend (st : ClientState) (cmd : List Char) (er : Bool) (n : Nat)
    (s : FutState) (h : futVal st n = some s) :
    futVal (stepEvent st (.send cmd er)) n = some s := by
  by_cases h1 : st.connected = true
  · by_cases h2 : containsCrlf cmd = true
    · rw [stepEvent, send_invalid st cmd er h1 h2]; exact h
    · cases er with
      | true =>
        rw [stepEvent, send_ok_expect st cmd h1 (by simpa using h2)]
        exact futLookup_append_left _ _ _ _ h
      | false =>
        rw [stepEvent, send_ok_noexpect st cmd h1 (by simpa using h2)]
        exact h
  · rw [stepEvent, send_not_connected st cmd er (by simpa using h1)]; exact h

/-- One event-loop step never revokes a resolution nor changes its value. -/
theorem stepEvent_resolved_stable (st : ClientState) (e : Event) (n : Nat)
    (v : Resp) (h : futVal st n = some (.resolved v)) :
    futVal (stepEvent st e) n = some (.resolved v) := by
  cases e with
  | send cmd er => exact futVal_stepSend st cmd er n _ h
  | chunk c =>
    rw [stepEvent, futVal_chunkArrives, h]
    by_cases hmem : n ∈ st.listeners
    · rw [if_pos hmem]; rfl
    · rw [if_neg hmem]
  | timeout m =>
    rw [stepEvent, futVal_fireTimeout, h]
    by_cases hc : m ∈ st.timers ∧ n = m
    · rw [if_pos hc]; rfl
    · rw [if_neg hc]

/-- Running any event list preserves an existing resolution. -/
theorem runEvents_resolved_stable (st : ClientState) (es : List Event) (n : Nat)
    (v : Resp) (h : futVal st n = some (.resolved v)) :
    futVal (runEvents st es) n = some (.resolved v) := by
  induction es generalizing st with
  | nil => exact h
  | cons e es' ih =>
    rw [runEvents, List.foldl_cons]
    exact ih (stepEvent st e) (stepEvent_resolved_stable st e n v h)

/-- One event-loop step keeps a pending promise pending or resolves it; it
never deletes it. -/
theorem stepEvent_pending_cases (st : ClientState) (e : Event) (n : Nat)
    (h : futVal st n = some .pending) :
    futVal (stepEvent st e) n = some .pending ∨
      ∃ v, futVal (stepEvent st e) n = some (.resolved v) := by
  cases e with
  | send cmd er => exact Or.inl (futVal_stepSend st cmd er n _ h)
  | chunk c =>
    rw [stepEvent, futVal_chunkArrives, h]
    by_cases hmem : n ∈ st.listeners
    · rw [if_pos hmem]
      exact Or.inr ⟨.payload (removeFirstCrlf c), rfl⟩
    · rw [if_neg hmem]; exact Or.inl rfl
  | timeout m =>
    rw [stepEvent, futVal_fireTimeout, h]
    by_cases hc : m ∈ st.timers ∧ n = m
    · rw [if_pos hc]; exact Or.inr ⟨.sentinel, rfl⟩
    · rw [if_neg hc]; exact Or.inl rfl

/-- Resolving never produces a pending state. -/
theorem resolveState_ne_pending (r : Resp) (s : FutState) :
    resolveState r s ≠ .pending := by
  cases s <;> simp [resolveState]

/-- The timer of a promise that is still pending after a step is still
armed after that step: the source never cancels a timer, and the only event
that consumes the timer also resolves the promise. -/
theorem stepEvent_timer_retained (st : ClientState) (e : Event) (n : Nat)
    (ht : n ∈ st.timers)
    (hstill : futVal (stepEvent st e) n = some .pending) :
    n ∈ (stepEvent st e).timers := by
  cases e with
  | send cmd er =>
    by_cases h1 : st.connected = true
    · by_cases h2 : containsCrlf cmd = true
      · rw [stepEvent, send_invalid st cmd er h1 h2]; exact ht
      · cases er with
        | true =>
          rw [stepEvent, send_ok_expect st cmd h1 (by simpa using h2)]
          exact List.mem_append_left _ ht
        | false =>
          rw [stepEvent, send_ok_noexpect st cmd h1 (by simpa using h2)]
          exact ht
    · rw [stepEvent, send_not_connected st cmd er (by simpa using h1)]; exact ht
  | chunk c => exact ht
  | timeout m =>
    rw [stepEvent, futVal_fireTimeout] at hstill
    show n ∈ (fireTimeout st m).timers
    unfold fireTimeout
    by_cases hm : m ∈ st.timers
    · rw [if_pos hm]
      show n ∈ st.timers.erase m
      by_cases hnm : n = m
      · exfalso
        rw [if_pos ⟨hm, hnm⟩] at hstill
        cases hfv : futVal st n with
        | none => rw [hfv] at hstill; exact absurd hstill (by simp)
        | some s =>
          rw [hfv] at hstill
          exact resolveState_ne_pending .sentinel s (by simpa using hstill)
      · exact (List.mem_erase_of_ne hnm).mpr ht
    · rw [if_neg hm]; exact ht

/-- Once the timeout event of a pending armed promise is delivered, the run
ends with that promise resolved. -/
theorem runEvents_timeout_resolves (es : List Event) :
    ∀ (st : ClientState) (n : Nat),
      futVal st n = some .pending → n ∈ st.timers → Event.timeout n ∈ es →
      ∃ v, futVal (runEvents st es) n = some (.resolved v) := by
  induction es with
  | nil =>
    intro st n _ _ hmem
    exact absurd hmem (by simp)
  | cons e es' ih =>
    intro st n hp ht hmem
    rw [runEvents, List.foldl_cons]
    rcases stepEvent_pending_cases st e n hp with hpend | ⟨v, hv⟩
    · have ht' : n ∈ (stepEvent st e).timers :=
        stepEvent_timer_retained st e n ht hpend
      have hmem' : Event.timeout n ∈ es' := by
        rcases List.mem_cons.mp hmem with heq | h'
        · exfalso
          rw [← heq, stepEvent, futVal_fireTimeout, if_pos ⟨ht, rfl⟩, hp] at hpend
          exact resolveState_ne_pending .sentinel .pending (by simpa using hpend)
        · exact h'
      exact ih (stepEvent st e) n hpend ht' hmem'
    · exact ⟨v, runEvents_resolved_stable _ es' n v hv⟩

/-- No event-loop step ever touches the connection details stored at
construction time. -/
theorem stepEvent_connectionDetails (st : ClientState) (e : Event) :
    (stepEvent st e).connectionDetails = st.connectionDetails := by
  cases e with
  | send cmd er =>
    by_cases h1 : st.connected = true
    · by_cases h2 : containsCrlf cmd = true
      · rw [stepEvent, send_invalid st cmd er h1 h2]
      · cases er with
        | true => rw [stepEvent, send_ok_expect st cmd h1 (by simpa using h2)]
        | false => rw [stepEvent, send_ok_noexpect st cmd h1 (by simpa using h2)]
    · rw [stepEvent, send_not_connected st cmd er (by simpa using h1)]
  | chunk c => rfl
  | timeout m =>
    show (fireTimeout st m).connectionDetails = _
    unfold fireTimeout
    by_cases hm : m ∈ st.timers
    · rw [if_pos hm]
    · rw [if_neg hm]

/-- Running any event list preserves the connection details. -/
theorem runEvents_connectionDetails (st : ClientState) (es : List Event) :
    (runEvents st es).connectionDetails = st.connectionDetails := by
  induction es generalizing st with
  | nil => rfl
  | cons e es' ih =>
    rw [runEvents, List.foldl_cons]
    exact (ih (stepEvent st e)).trans (stepEvent_connectionDetails st e)

/-- A freshly constructed client is not connected. -/
theorem mkClient_connected (addr : List Char) (st0 : ClientState)
    (h : mkClient addr = .ok st0) : st0.connected = false := by
  unfold mkClient at h
  cases hs : splitOnColon addr with
  | nil => rw [hs] at h; exact absurd h (by simp)
  | cons p1 rest =>
    cases rest with
    | nil => rw [hs] at h; exact absurd h (by simp)
    | cons p2 rest2 =>
      cases rest2 with
      | nil =>
        rw [hs] at h
        simp only [Except.ok.injEq] at h
        rw [← h]
      | cons q qs => rw [hs] at h; exact absurd h (by simp)

/-- C2 counterexample: issuing a second response-expecting command while
the first one's promise is still unresolved nevertheless writes the second
command to the wire, so the at-most-one-in-flight property fails on the
code at this concrete trace. -/
theorem c2_in_flight_counterexample :
    (runEvents connectedClient [.send ['a'] true, .send ['b'] true]).wire =
      [['a', '\r', '\n'], ['b', '\r', '\n']] ∧
    futVal (runEvents connectedClient [.send ['a'] true, .send ['b'] true]) 0 =
      some .pending := by
  exact ⟨by decide, by decide⟩

/-- C2 (amended): send performs no in-flight gating at all; whenever the
client is connected and the command is terminator-free, the command is
written to the wire immediately, regardless of any unresolved
response-expecting promises in the state. -/
theorem c2_always_writes (st : ClientState) (cmd : List Char) (er : Bool)
    (h1 : st.connected = true) (h2 : containsCrlf cmd = false) :
    ∃ st' r, send st cmd er = .ok (st', r) ∧
      st'.wire = st.wire ++ [cmd ++ crlf] := by
  cases er with
  | false => exact ⟨_, _, send_ok_noexpect st cmd h1 h2, rfl⟩
  | true => exact ⟨_, _, send_ok_expect st cmd h1 h2, rfl⟩

/-- Witness for C2: the amended statement applied to a concrete state that
still holds an unresolved response-expecting promise. -/
theorem c2_always_writes_witness :
    ∃ st' r,
      send (runEvents connectedClient [.send ['a'] true]) ['b'] true = .ok (st', r) ∧
      st'.wire = (runEvents connectedClient [.send ['a'] true]).wire ++
        [['b'] ++ crlf] :=
  c2_always_writes (runEvents connectedClient [.send ['a'] true]) ['b'] true
    (by decide) (by decide)

/-- C3 counterexample: a fire-and-forget command issued while a
response-expecting command's promise is unresolved is written immediately,
not deferred, so the deferral property fails on the code at this concrete
trace. -/
theorem c3_deferral_counterexample :
    (runEvents connectedClient [.send ['a'] true, .send ['x'] false]).wire =
      [['a', '\r', '\n'], ['x', '\r', '\n']] ∧
    futVal (runEvents connectedClient [.send ['a'] true, .send ['x'] false]) 0 =
      some .pending := by
  exact ⟨by decide, by decide⟩

/-- C3 (amended): a command issued with expectResponse false is always
written to the wire immediately, even while response-expecting commands are
pending (no deferred buffer exists), and send returns synchronously with no
promise and no other state change. -/
theorem c3_fire_and_forget_immediate (st : ClientState) (cmd : List Char)
    (h1 : st.connected = true) (h2 : containsCrlf cmd = false) :
    send st cmd false = .ok ({ st with wire := st.wire ++ [cmd ++ crlf] }, none) :=
  send_ok_noexpect st cmd h1 h2

/-- Witness for C3: the amended statement applied to a concrete state that
still holds an unresolved response-expecting promise. -/
theorem c3_fire_and_forget_immediate_witness :
    send (runEvents connectedClient [.send ['a'] true]) ['x'] false =
      .ok ({ runEvents connectedClient [.send ['a'] true] with
              wire := (runEvents connectedClient [.send ['a'] true]).wire ++
                [['x'] ++ crlf] }, none) :=
  c3_fire_and_forget_immediate (runEvents connectedClient [.send ['a'] true])
    ['x'] (by decide) (by decide)

/-- C6 (confirmed): send throws a not-connected error when the client is
disconnected and an invalid-command error when the command contains the
terminator; in both failure cases the state is untouched (so nothing
reaches the wire); when connected with a terminator-free command it does
not throw. -/
theorem c6_send_preconditions (st : ClientState) (cmd : List Char) (er : Bool) :
    (st.connected = false →
       send st cmd er = .error .notConnected ∧ stepEvent st (.send cmd er) = st) ∧
    (st.connected = true → containsCrlf cmd = true →
       send st cmd er = .error .invalidCommand ∧ stepEvent st (.send cmd er) = st) ∧
    (st.connected = true → containsCrlf cmd = false →
       ∃ st' r, send st cmd er = .ok (st', r)) := by
  refine ⟨fun h => ⟨send_not_connected st cmd er h, ?_⟩,
    fun h1 h2 => ⟨send_invalid st cmd er h1 h2, ?_⟩, fun h1 h2 => ?_⟩
  · rw [stepEvent, send_not_connected st cmd er h]
  · rw [stepEvent, send_invalid st cmd er h1 h2]
  · cases er with
    | false => exact ⟨_, _, send_ok_noexpect st cmd h1 h2⟩
    | true => exact ⟨_, _, send_ok_expect st cmd h1 h2⟩

/-- Witness for C6: the three branches at concrete inputs. -/
theorem c6_send_preconditions_witness :
    send freshClient ['a'] true = .error .notConnected ∧
    send connectedClient ['a', '\r', '\n'] true = .error .invalidCommand ∧
    ∃ st' r, send connectedClient ['a'] true = .ok (st', r) :=
  ⟨((c6_send_preconditions freshClient ['a'] true).1 (by decide)).1,
   ((c6_send_preconditions connectedClient ['a', '\r', '\n'] true).2.1
      (by decide) (by decide)).1,
   (c6_send_preconditions connectedClient ['a'] true).2.2 (by decide) (by decide)⟩

/-- C7 (confirmed): disconnect on a connected client returns true and
transitions to disconnected; a second consecutive call returns false; on a
disconnected client (in particular any freshly constructed one) it returns
false and performs no action, and it is a total function, so it never
throws. -/
theorem c7_disconnect_idempotent (st : ClientState) :
    (st.connected = true →
       disconnect st = ({ st with connected := false }, true) ∧
       (disconnect (disconnect st).1).2 = false) ∧
    (st.connected = false → disconnect st = (st, false)) ∧
    (∀ (addr : List Char) (st0 : ClientState),
       mkClient addr = .ok st0 → disconnect st0 = (st0, false)) := by
  refine ⟨fun h => ?_, fun h => ?_, fun addr st0 h => ?_⟩
  · have h1 : disconnect st = ({ st with connected := false }, true) := by
      rw [disconnect, if_neg (by simp [h])]
    refine ⟨h1, ?_⟩
    rw [h1, disconnect, if_pos rfl]
  · rw [disconnect, if_pos h]
  · rw [disconnect, if_pos (mkClient_connected addr st0 h)]

/-- Witness for C7: a connected client, its second disconnect, and a fresh
client. -/
theorem c7_disconnect_idempotent_witness :
    disconnect connectedClient = ({ connectedClient with connected := false }, true) ∧
    (disconnect (disconnect connectedClient).1).2 = false ∧
    disconnect freshClient = (freshClient, false) :=
  ⟨((c7_disconnect_idempotent connectedClient).1 (by decide)).1,
   ((c7_disconnect_idempotent connectedClient).1 (by decide)).2,
   (c7_disconnect_idempotent freshClient).2.1 (by decide)⟩

/-- C9 (confirmed): the terminator check rejects only the exact CR LF pair,
so a connected client accepts a command containing a lone LF or a lone CR
(but no CR LF) and writes it, with the terminator appended, to the wire. -/
theorem c9_lone_newline_ok (st : ClientState) (cmd : List Char) (er : Bool)
    (h1 : st.connected = true)
    (_hlone : '\n' ∈ cmd ∨ '\r' ∈ cmd)
    (h2 : containsCrlf cmd = false) :
    ∃ st' r, send st cmd er = .ok (st', r) ∧
      st'.wire = st.wire ++ [cmd ++ crlf] := by
  cases er with
  | false => exact ⟨_, _, send_ok_noexpect st cmd h1 h2, rfl⟩
  | true => exact ⟨_, _, send_ok_expect st cmd h1 h2, rfl⟩

/-- Witness for C9: a command containing a lone LF goes through send and
onto the wire. -/
theorem c9_lone_newline_ok_witness :
    ∃ st' r, send connectedClient ['a', '\n', 'b'] true = .ok (st', r) ∧
      st'.wire = connectedClient.wire ++ [['a', '\n', 'b'] ++ crlf] :=
  c9_lone_newline_ok connectedClient ['a', '\n', 'b'] true (by decide)
    (Or.inl (by decide)) (by decide)

/-- C10 (confirmed): construction succeeds for every address splitting into
exactly two colon-separated segments, storing the first as host and
parseInt of the second as port, with no numeric validation: a non-numeric
port segment yields a NaN port and no construction-time error. -/
theorem c10_no_port_validation :
    (∀ (addr ipPart portPart : List Char),
       splitOnColon addr = [ipPart, portPart] →
       mkClient addr = .ok
         { connectionDetails := { ip := ipPart, port := parseIntJS portPart },
           connected := false, timeout := 100, initGameTimeOnce := false,
           wire := [], listeners := [], futures := [], timers := [],
           nextId := 0 }) ∧
    (∃ st, mkClient ['h', 'o', 's', 't', ':', 'a', 'b', 'c'] = .ok st ∧
       st.connectionDetails.port = none) := by
  constructor
  · intro addr ipPart portPart h
    unfold mkClient
    rw [h]
  · exact ⟨{ connectionDetails := { ip := ['h', 'o', 's', 't'], port := none },
             connected := false, timeout := 100, initGameTimeOnce := false,
             wire := [], listeners := [], futures := [], timers := [],
             nextId := 0 },
      by rfl, by rfl⟩

/-- Witness for C10: the universally quantified part applied to the
concrete address with a non-numeric port segment. -/
theorem c10_no_port_validation_witness :
    mkClient ['h', 'o', 's', 't', ':', 'a', 'b', 'c'] = .ok
      { connectionDetails :=
          { ip := ['h', 'o', 's', 't'], port := parseIntJS ['a', 'b', 'c'] },
        connected := false, timeout := 100, initGameTimeOnce := false,
        wire := [], listeners := [], futures := [], timers := [], nextId := 0 } :=
  c10_no_port_validation.1 ['h', 'o', 's', 't', ':', 'a', 'b', 'c']
    ['h', 'o', 's', 't'] ['a', 'b', 'c'] (by decide)

/-- C5 counterexample: a single chunk holding exactly two
terminator-delimited segments does not yield exactly two line events in
either revision: the first revision emits one concatenated event with only
the first terminator removed, and the second revision emits three events,
the third being an empty line. -/
theorem c5_two_segments_counterexample :
    emittedV1 ['a', '\r', '\n', 'b', '\r', '\n'] = [['a', 'b', '\r', '\n']] ∧
    (emittedV1 ['a', '\r', '\n', 'b', '\r', '\n']).length = 1 ∧
    emittedV2 ['a', '\r', '\n', 'b', '\r', '\n'] = [['a'], ['b'], []] ∧
    (emittedV2 ['a', '\r', '\n', 'b', '\r', '\n']).length = 3 := by
  exact ⟨by decide, by decide, by decide, by decide⟩

/-- C5 (amended): for a chunk of two terminator-free segments each followed
by the terminator, the first revision's handler emits a single event whose
payload is the two segments glued with the second terminator still
attached, and the second revision's handler emits the two segment payloads
followed by one extra empty event; the second revision emits exactly the
two segments only when no trailing terminator is present. -/
theorem c5_chunk_splitting (a b : List Char)
    (ha : containsCrlf a = false) (hb : containsCrlf b = false) :
    emittedV1 (a ++ crlf ++ b ++ crlf) = [a ++ b ++ crlf] ∧
    emittedV2 (a ++ crlf ++ b ++ crlf) = [a, b, []] ∧
    emittedV2 (a ++ crlf ++ b) = [a, b] := by
  have hnorm : a ++ crlf ++ b ++ crlf = a ++ '\r' :: '\n' :: (b ++ '\r' :: '\n' :: []) := by
    simp [crlf]
  have hnorm2 : a ++ crlf ++ b = a ++ '\r' :: '\n' :: b := by
    simp [crlf]
  refine ⟨?_, ?_, ?_⟩
  · rw [emittedV1, hnorm, removeFirstCrlf_append a _ ha]
    simp [crlf]
  · rw [emittedV2, hnorm, splitMessages_append a _ ha,
      splitMessages_append b _ hb]
    rfl
  · rw [emittedV2, hnorm2, splitMessages_append a _ ha, splitMessages_single b hb]

/-- Witness for C5: the amended statement at two concrete one-character
segments. -/
theorem c5_chunk_splitting_witness :
    emittedV1 (['a'] ++ crlf ++ ['b'] ++ crlf) = [['a'] ++ ['b'] ++ crlf] ∧
    emittedV2 (['a'] ++ crlf ++ ['b'] ++ crlf) = [['a'], ['b'], []] ∧
    emittedV2 (['a'] ++ crlf ++ ['b']) = [['a'], ['b']] :=
  c5_chunk_splitting ['a'] ['b'] (by decide) (by decide)

/-- C8 (confirmed): the documented address parses to its host and port,
the two malformed addresses fail construction with the parse error, and no
operation of the client ever mutates the stored connection details. -/
theorem c8_endpoint_parsing :
    (∃ st, mkClient goodAddr = .ok st ∧
       st.connectionDetails =
         { ip := ['1', '2', '7', '.', '0', '.', '0', '.', '1'],
           port := some 16834 }) ∧
    mkClient ['b', 'a', 'd', 's', 't', 'r', 'i', 'n', 'g'] =
      .error .parseFailure ∧
    mkClient ['a', ':', 'b', ':', 'c'] = .error .parseFailure ∧
    (∀ (st : ClientState) (es : List Event),
       (runEvents st es).connectionDetails = st.connectionDetails) ∧
    (∀ st : ClientState, (disconnect st).1.connectionDetails = st.connectionDetails) ∧
    (∀ st : ClientState, (connectSucceed st).connectionDetails = st.connectionDetails) := by
  refine ⟨⟨freshClient, by rfl, by rfl⟩, by rfl, by rfl,
    runEvents_connectionDetails, fun st => ?_, fun st => rfl⟩
  unfold disconnect
  by_cases h : st.connected = false
  · rw [if_pos h]
  · rw [if_neg h]

/-- C4 counterexample: with two response-expecting commands pending, a
single inbound line resolves both promises with the same payload, so the
second command's promise is resolved with a reply that was already consumed
by the first command's promise, refuting the claim at this concrete
trace. -/
theorem c4_shared_reply_counterexample :
    futVal (runEvents connectedClient
      [.send ['a'] true, .send ['b'] true, .chunk ['r', '\r', '\n']]) 0 =
      some (.resolved (.payload ['r'])) ∧
    futVal (runEvents connectedClient
      [.send ['a'] true, .send ['b'] true, .chunk ['r', '\r', '\n']]) 1 =
      some (.resolved (.payload ['r'])) := by
  exact ⟨by decide, by decide⟩

/-- C4 (amended): every response-expecting send creates a pending promise
with an active listener and an armed timer; an inbound line resolves a
listening pending promise with the processed payload; a resolution, once
made, is never revoked or changed by any later events; and a pending armed
promise whose timeout event is delivered ends resolved, so with its
always-armed timer the promise resolves exactly once, with a payload or
with the sentinel false, which is distinct from every payload; however a
single reply may simultaneously resolve several pending promises, so a
promise can receive a reply already consumed by an earlier command's
promise. -/
theorem c4_exactly_once :
    (∀ s : List Char, Resp.sentinel ≠ Resp.payload s) ∧
    (∀ (st : ClientState) (cmd : List Char) (st' : ClientState) (n : Nat),
       futVal st st.nextId = none →
       send st cmd true = .ok (st', some n) →
       futVal st' n = some .pending ∧ n ∈ st'.listeners ∧ n ∈ st'.timers) ∧
    (∀ (st : ClientState) (c : List Char) (n : Nat),
       futVal st n = some .pending → n ∈ st.listeners →
       futVal (chunkArrives st c) n =
         some (.resolved (.payload (removeFirstCrlf c)))) ∧
    (∀ (st : ClientState) (es : List Event) (n : Nat) (v : Resp),
       futVal st n = some (.resolved v) →
       futVal (runEvents st es) n = some (.resolved v)) ∧
    (∀ (st : ClientState) (es : List Event) (n : Nat),
       futVal st n = some .pending → n ∈ st.timers → Event.timeout n ∈ es →
       ∃ v, futVal (runEvents st es) n = some (.resolved v)) := by
  refine ⟨fun s h => by simp at h, ?_, ?_,
    fun st es n v h => runEvents_resolved_stable st es n v h,
    fun st es n hp ht hm => runEvents_timeout_resolves es st n hp ht hm⟩
  · intro st cmd st' n h0 hsend
    by_cases h1 : st.connected = true
    · by_cases h2 : containsCrlf cmd = true
      · rw [send_invalid st cmd true h1 h2] at hsend
        exact absurd hsend (by simp)
      · rw [send_ok_expect st cmd h1 (by simpa using h2)] at hsend
        simp only [Except.ok.injEq, Prod.mk.injEq, Option.some.injEq] at hsend
        obtain ⟨hst, hn⟩ := hsend
        subst hn
        rw [← hst]
        refine ⟨?_, List.mem_append_right _ (by simp), List.mem_append_right _ (by simp)⟩
        show futLookup st.nextId (st.futures ++ [(st.nextId, .pending)]) = _
        rw [futLookup_append_right st.futures _ st.nextId h0]
        simp [futLookup]
    · rw [send_not_connected st cmd true (by simpa using h1)] at hsend
      exact absurd hsend (by simp)
  · intro st c n hp hmem
    rw [futVal_chunkArrives, if_pos hmem, hp]
    rfl

/-- Witness for C4: the conjuncts applied at concrete inputs: a fresh send
creates the pending promise, a chunk resolves a listening promise, a
resolution survives later events, and a delivered timeout resolves a
pending promise. -/
theorem c4_exactly_once_witness :
    (futVal (runEvents connectedClient [.send ['a'] true]) 0 = some .pending ∧
       0 ∈ (runEvents connectedClient [.send ['a'] true]).listeners ∧
       0 ∈ (runEvents connectedClient [.send ['a'] true]).timers) ∧
    futVal (chunkArrives (runEvents connectedClient [.send ['a'] true])
        ['r', '\r', '\n']) 0 =
      some (.resolved (.payload (removeFirstCrlf ['r', '\r', '\n']))) ∧
    futVal (runEvents (runEvents connectedClient
        [.send ['a'] true, .chunk ['r', '\r', '\n']]) [.timeout 0]) 0 =
      some (.resolved (.payload ['r'])) ∧
    (∃ v, futVal (runEvents (runEvents connectedClient [.send ['a'] true])
        [.timeout 0]) 0 = some (.resolved v)) :=
  ⟨c4_exactly_once.2.1 connectedClient ['a']
     (runEvents connectedClient [.send ['a'] true]) 0 (by decide) (by rfl),
   c4_exactly_once.2.2.1 (runEvents connectedClient [.send ['a'] true])
     ['r', '\r', '\n'] 0 (by decide) (by decide),
   c4_exactly_once.2.2.2.1
     (runEvents connectedClient [.send ['a'] true, .chunk ['r', '\r', '\n']])
     [.timeout 0] 0 (.payload ['r']) (by decide),
   c4_exactly_once.2.2.2.2 (runEvents connectedClient [.send ['a'] true])
     [.timeout 0] 0 (by decide) (by decide) (by decide)⟩

/-- C1 counterexample: three response-expecting commands issued before any
reply arrives, with the three replies then arriving in issuance order, one
per command and with no timeout firing; the second command's promise
resolves with the FIRST reply, not with the second, because every pending
once listener fires on the first data event.  This refutes the claim at a
concrete inter-arrival timing it quantifies over. -/
theorem c1_concurrent_counterexample :
    futVal (runEvents connectedClient
      [.send ['a'] true, .send ['b'] true, .send ['c'] true,
       .chunk ['r', 'a', '\r', '\n'], .chunk ['r', 'b', '\r', '\n'],
       .chunk ['r', 'c', '\r', '\n']]) 1 =
      some (.resolved (.payload ['r', 'a'])) ∧
    ¬ futVal (runEvents connectedClient
      [.send ['a'] true, .send ['b'] true, .send ['c'] true,
       .chunk ['r', 'a', '\r', '\n'], .chunk ['r', 'b', '\r', '\n'],
       .chunk ['r', 'c', '\r', '\n']]) 1 =
      some (.resolved (.payload ['r', 'b'])) := by
  exact ⟨by decide, by decide⟩

/-- C1 (amended): FIFO correlation holds only for sequential issuance: when
each response-expecting command is issued after the previous command's
reply has arrived (and each reply arrives before any timeout fires), the
three promises resolve with their own replies in order. -/
theorem c1_sequential_fifo (a b c ra rb rc : List Char)
    (ha : containsCrlf a = false) (hb : containsCrlf b = false)
    (hc : containsCrlf c = false) (hra : containsCrlf ra = false)
    (hrb : containsCrlf rb = false) (hrc : containsCrlf rc = false) :
    futVal (runEvents connectedClient
      [.send a true, .chunk (ra ++ crlf), .send b true, .chunk (rb ++ crlf),
       .send c true, .chunk (rc ++ crlf)]) 0 = some (.resolved (.payload ra)) ∧
    futVal (runEvents connectedClient
      [.send a true, .chunk (ra ++ crlf), .send b true, .chunk (rb ++ crlf),
       .send c true, .chunk (rc ++ crlf)]) 1 = some (.resolved (.payload rb)) ∧
    futVal (runEvents connectedClient
      [.send a true, .chunk (ra ++ crlf), .send b true, .chunk (rb ++ crlf),
       .send c true, .chunk (rc ++ crlf)]) 2 = some (.resolved (.payload rc)) := by
  have h0 : removeFirstCrlf (ra ++ crlf) = ra := by
    simpa [crlf] using removeFirstCrlf_append ra [] hra
  have h1 : removeFirstCrlf (rb ++ crlf) = rb := by
    simpa [crlf] using removeFirstCrlf_append rb [] hrb
  have h2 : removeFirstCrlf (rc ++ crlf) = rc := by
    simpa [crlf] using removeFirstCrlf_append rc [] hrc
  refine ⟨?_, ?_, ?_⟩ <;>
    simp [runEvents, stepEvent, send, chunkArrives, emitData, resolveFut,
      resolveState, futVal, futLookup, connectedClient, connectSucceed,
      freshClient, ha, hb, hc, h0, h1, h2]

/-- Witness for C1: the amended statement at concrete one- and
two-character commands and replies. -/
theorem c1_sequential_fifo_witness :
    futVal (runEvents connectedClient
      [.send ['a'] true, .chunk (['r', 'a'] ++ crlf), .send ['b'] true,
       .chunk (['r', 'b'] ++ crlf), .send ['c'] true,
       .chunk (['r', 'c'] ++ crlf)]) 0 = some (.resolved (.payload ['r', 'a'])) ∧
    futVal (runEvents connectedClient
      [.send ['a'] true, .chunk (['r', 'a'] ++ crlf), .send ['b'] true,
       .chunk (['r', 'b'] ++ crlf), .send ['c'] true,
       .chunk (['r', 'c'] ++ crlf)]) 1 = some (.resolved (.payload ['r', 'b'])) ∧
    futVal (runEvents connectedClient
      [.send ['a'] true, .chunk (['r', 'a'] ++ crlf), .send ['b'] true,
       .chunk (['r', 'b'] ++ crlf), .send ['c'] true,
       .chunk (['r', 'c'] ++ crlf)]) 2 = some (.resolved (.payload ['r', 'c'])) :=
  c1_sequential_fifo ['a'] ['b'] ['c'] ['r', 'a'] ['r', 'b'] ['r', 'c']
    (by decide) (by decide) (by decide) (by decide) (by decide) (by decide)
